import Mathlib

/-!
A shallow embedding of the recursive research explorer from
`src/deep-research.ts` (`generateSerpQueries`, `processSerpResult`,
`deepResearch`) and of the competitor-analysis variant
(`discoverDrugsForIndication`, `researchDrug`, `performCompetitorAnalysis`),
together with proofs about progress reporting, error propagation,
deduplication and the breadth/depth decay policy.

The asynchronous backends (`generateObject` calls and `firecrawl.search`) are
modelled as explicit fallible functions collected in an `Env` record; each
backend receives exactly the data the source interpolates into the
corresponding prompt (query text, accumulated learnings, page contents,
requested output bounds).  JavaScript runs all branches cooperatively on one
event loop; execution is modelled by the deterministic dispatch-order
schedule, under which the mutable progress object of one `deepResearch` call
is threaded sequentially through that call's branches.  Every
`reportProgress` call is recorded in the order the observer callback receives
the snapshots, tagged with the recursion level of the `deepResearch`
activation whose progress object was mutated (the top-level call is level 0;
each recursive call creates a fresh progress object one level deeper).
-/

/-- One entry of the `queries` array returned by the planning `generateObject`
call in `generateSerpQueries`. -/
structure SerpQuery where
  query : String
  researchGoal : String
deriving DecidableEq

/-- One item of `result.data` from `firecrawl.search`: both `url` and
`markdown` may be absent. -/
structure SearchItem where
  url : Option String
  markdown : Option String
deriving DecidableEq

/-- The `SearchResponse` of `firecrawl.search`, reduced to its `data` array. -/
structure SearchResponse where
  data : List SearchItem
deriving DecidableEq

/-- The object returned by the distillation `generateObject` call in
`processSerpResult`. -/
structure SerpExtraction where
  learnings : List String
  followUpQuestions : List String
deriving DecidableEq

/-- The `ResearchResult` type of `deep-research.ts`. -/
structure ResearchResult where
  learnings : List String
  visitedUrls : List String
deriving DecidableEq

/-- The `ResearchProgress` type of `deep-research.ts`.  `currentQuery` is the
only optional field. -/
structure ResearchProgress where
  currentDepth : Nat
  totalDepth : Nat
  currentBreadth : Nat
  totalBreadth : Nat
  currentQuery : Option String
  totalQueries : Nat
  completedQueries : Nat
deriving DecidableEq

/-- `status` enum of `src/schema.ts`. -/
inductive DrugStatus
  | active
  | inactive
  | recentlyInactive
  | unspecified
deriving DecidableEq

/-- `drug_modality` enum of `src/schema.ts`. -/
inductive DrugModality
  | biologic
  | cellular
  | geneTherapy
  | microbial
  | smallMolecule
  | unspecified
deriving DecidableEq

/-- `clinical_trial_phase` enum of `src/schema.ts`. -/
inductive TrialPhase
  | approvedMarketed
  | preclinical
  | phase1
  | phase2a
  | phase2b
  | phase3
  | unspecified
deriving DecidableEq

/-- `route_of_administration` enum of `src/schema.ts`. -/
inductive AdminRoute
  | oral
  | injectable
  | topical
  | unspecified
deriving DecidableEq

/-- One element of the `description` array of `src/schema.ts`. -/
structure DrugEvent where
  text : String
  date : String
  source : String
deriving DecidableEq

/-- The drug record schema of `src/schema.ts` (`DrugInfo` in
`deep-research.ts`). -/
structure DrugInfo where
  drug_name : String
  api_name : String
  status : DrugStatus
  description : List DrugEvent
  drug_modality : DrugModality
  organization : String
  clinical_trial_phase : TrialPhase
  route_of_administration : AdminRoute
  mode_of_action : String
  references : List String
deriving DecidableEq

/-- The external capability interfaces consumed by `deep-research.ts`.  Each
field models one kind of backend call; `Except.error` models a rejected
promise (including timeouts).  `search` additionally receives the `limit`
option, which differs between call sites (5 for research searches, 10 for
drug-discovery searches). -/
structure Env where
  planBackend : String → List String → Except String (List SerpQuery)
  search : String → Nat → Except String SearchResponse
  distillBackend : String → List String → Nat → Nat → Except String SerpExtraction
  discoverQueriesBackend : String → Except String (List String)
  drugListBackend : String → String → Except String (List String)
  drugInfoBackend : String → String → Except String DrugInfo
  mergeBackend : String → List DrugInfo → Except String DrugInfo

/-- Modelled from the spec: `trimPrompt` is imported from `./ai/providers`,
which is not among the analysed sources; §4.3 of the spec says each raw
content is "truncated to a fixed character budget before concatenation".
Modelled as truncation to the first `n` characters. -/
def trimPrompt (s : String) (n : Nat) : String := s.take n

/-- lodash `compact` specialised to string fields: it drops all falsy
entries, i.e. both `undefined` values and empty strings. -/
def compactStr (l : List (Option String)) : List String :=
  (l.filterMap id).filter (fun s => s != "")

/-- `Math.ceil(b / 2)` on a non-negative integer `b`. -/
def ceilHalf (b : Nat) : Nat := (b + 1) / 2

/-- JavaScript `Set` insertion: append `x` unless already present
(insertion-order preserving, exact string equality). -/
def insertIfAbsent (acc : List String) (x : String) : List String :=
  if x ∈ acc then acc else acc ++ [x]

/-- `[...new Set(l)]`: first-occurrence-ordered deduplication by exact string
equality. -/
def dedupFirst (l : List String) : List String :=
  l.foldl insertIfAbsent []

/-- `generateSerpQueries` (deep-research.ts, lines 48–90): ask the planning
backend with the query and the accumulated learnings, then
`res.object.queries.slice(0, numQueries)`. -/
def generateSerpQueries (env : Env) (query : String) (numQueries : Nat)
    (learnings : List String) : Except String (List SerpQuery) :=
  match env.planBackend query learnings with
  | .error e => .error e
  | .ok qs => .ok (qs.take numQueries)

/-- `processSerpResult` (deep-research.ts, lines 92–132): build `contents`
from the markdown of each result item (`compact` drops missing/empty
markdown, each content is trimmed to 25 000 characters), then call the
distillation backend; its timeout (`AbortSignal.timeout(60_000)`) and other
failures surface as `Except.error`. -/
def processSerpResult (env : Env) (query : String) (result : SearchResponse)
    (numLearnings numFollowUpQuestions : Nat) : Except String SerpExtraction :=
  let contents := (compactStr (result.data.map (fun item => item.markdown))).map
    (fun content => trimPrompt content 25000)
  env.distillBackend query contents numLearnings numFollowUpQuestions

/-- The `nextQuery` template literal of the recursive case
(deep-research.ts, lines 243–246), including its `.trim()`. -/
def nextQueryString (goal : String) (followUps : List String) : String :=
  ("\n            Previous research goal: " ++ goal ++
    "\n            Follow-up research directions: " ++
    String.join (followUps.map (fun q => "\n" ++ q)) ++
    "\n          ").trim

/-- The state of one call's `progress` object right after the first
`reportProgress({totalQueries: serpQueries.length, currentQuery:
serpQueries[0]?.query})`: all other fields still hold their initialisation
values from deep-research.ts lines 181–188. -/
def initialProgress (breadth depth : Nat) (qs : List SerpQuery) : ResearchProgress :=
  { currentDepth := depth
    totalDepth := depth
    currentBreadth := breadth
    totalBreadth := breadth
    currentQuery := qs.head?.map SerpQuery.query
    totalQueries := qs.length
    completedQueries := 0 }

/-- The type of a recursive `deepResearch` continuation: query text, breadth,
accumulated learnings, accumulated URLs, recursion level. -/
abbrev ExploreFn :=
  String → Nat → List String → List String → Nat →
    Except String (ResearchResult × List (Nat × ResearchProgress))

/-- The `reportProgress` update of the recursive case
(deep-research.ts, lines 236–241): `Object.assign` overwrites
`currentDepth`, `currentBreadth`, `completedQueries` and `currentQuery`. -/
def recursiveReport (progress : ResearchProgress) (sq : SerpQuery)
    (newDepth newBreadth : Nat) : ResearchProgress :=
  { progress with
      currentDepth := newDepth
      currentBreadth := newBreadth
      completedQueries := progress.completedQueries + 1
      currentQuery := some sq.query }

/-- The `reportProgress` update of the terminal case
(deep-research.ts, lines 257–261): `Object.assign` overwrites
`currentDepth`, `completedQueries` and `currentQuery`. -/
def terminalReport (progress : ResearchProgress) (sq : SerpQuery) : ResearchProgress :=
  { progress with
      currentDepth := 0
      completedQueries := progress.completedQueries + 1
      currentQuery := some sq.query }

/-- One branch of the fan-out: the body of `limit(async () => {...})`
(deep-research.ts, lines 210–281) for one `serpQuery`, given the state of
this call's progress object.  Returns the branch's `ResearchResult`, the
updated progress object, and the snapshots reported during the branch.
Search and distillation failures are caught and degrade the branch to the
empty partial result; a failure of the recursive call is NOT caught, because
the source returns the recursive promise without `await`, so its rejection
escapes the `try`/`catch`. -/
def branchStep (env : Env) (child : ExploreFn) (breadth depth : Nat)
    (learnings visitedUrls : List String) (level : Nat)
    (sq : SerpQuery) (progress : ResearchProgress) :
    Except String (ResearchResult × ResearchProgress × List (Nat × ResearchProgress)) :=
  match env.search sq.query 5 with
  | .error _ => .ok (⟨[], []⟩, progress, [])
  | .ok result =>
    let newUrls := compactStr (result.data.map (fun item => item.url))
    let newBreadth := ceilHalf breadth
    let newDepth := depth - 1
    match processSerpResult env sq.query result 3 newBreadth with
    | .error _ => .ok (⟨[], []⟩, progress, [])
    | .ok newLearnings =>
      let allLearnings := learnings ++ newLearnings.learnings
      let allUrls := visitedUrls ++ newUrls
      if 0 < newDepth then
        let progress2 := recursiveReport progress sq newDepth newBreadth
        match child (nextQueryString sq.researchGoal newLearnings.followUpQuestions)
            newBreadth allLearnings allUrls (level + 1) with
        | .error e => .error e
        | .ok (childRes, childTrace) =>
          .ok (childRes, progress2, (level, progress2) :: childTrace)
      else
        let progress2 := terminalReport progress sq
        .ok (⟨allLearnings, allUrls⟩, progress2, [(level, progress2)])

/-- The `Promise.all(serpQueries.map(...))` fan-out under the dispatch-order
schedule: branches run in submission order, threading the shared progress
object; the first rejected branch rejects the whole fan-out. -/
def runBranchesWith (env : Env) (child : ExploreFn) (breadth depth : Nat)
    (learnings visitedUrls : List String) (level : Nat) :
    List SerpQuery → ResearchProgress →
    Except String (List ResearchResult × ResearchProgress × List (Nat × ResearchProgress))
  | [], progress => .ok ([], progress, [])
  | sq :: rest, progress =>
    match branchStep env child breadth depth learnings visitedUrls level sq progress with
    | .error e => .error e
    | .ok (r, progress2, tr) =>
      match runBranchesWith env child breadth depth learnings visitedUrls level rest progress2 with
      | .error e => .error e
      | .ok (rs, p, tr2) => .ok (r :: rs, p, tr ++ tr2)

/-- The body of `deepResearch` (deep-research.ts, lines 166–289) with the
recursive call abstracted as `child`: plan the sub-queries (a planning
failure propagates unhandled), report the first snapshot, run all branches,
and return the `Set`-deduplicated flattened learnings and visited URLs. -/
def deepResearchStep (env : Env) (child : ExploreFn) (query : String)
    (breadth depth : Nat) (learnings visitedUrls : List String) (level : Nat) :
    Except String (ResearchResult × List (Nat × ResearchProgress)) :=
  match generateSerpQueries env query breadth learnings with
  | .error e => .error e
  | .ok serpQueries =>
    match runBranchesWith env child breadth depth learnings visitedUrls level
        serpQueries (initialProgress breadth depth serpQueries) with
    | .error e => .error e
    | .ok (results, _, trace) =>
      .ok (⟨dedupFirst (results.flatMap ResearchResult.learnings),
            dedupFirst (results.flatMap ResearchResult.visitedUrls)⟩,
           (level, initialProgress breadth depth serpQueries) :: trace)

/-- `deepResearch`, by structural recursion on `depth` (a non-negative
integer per the spec's data model).  At depth `d + 1` the recursive
continuation is `deepResearch env d`, which is exactly the function the
source invokes with `depth: newDepth` since `newDepth = depth - 1 = d`.  At
depth `0` the recursion guard `0 < depth - 1` is false, so the continuation
is never invoked and an inert placeholder is passed
(`deepResearchStep_child_irrelevant` below proves the placeholder is dead
code). -/
def deepResearch (env : Env) : Nat → ExploreFn
  | 0 => fun query breadth learnings visitedUrls level =>
      deepResearchStep env (fun _ _ _ _ _ => .ok (⟨[], []⟩, []))
        query breadth 0 learnings visitedUrls level
  | d + 1 => fun query breadth learnings visitedUrls level =>
      deepResearchStep env (deepResearch env d)
        query breadth (d + 1) learnings visitedUrls level

/-- JavaScript truthiness test on an optional markdown string: the source
guards on `item.markdown`, which is false for `undefined` and for the empty
string. -/
def truthyMarkdown (item : SearchItem) : Option String :=
  match item.markdown with
  | none => none
  | some md => if md = "" then none else some md

/-- The drugs extracted from one discovery search (the body of
`limit(async () => {...})` in `discoverDrugsForIndication`, deep-research.ts
lines 322–369): a failed search contributes nothing; per result item, absent
markdown yields `[]` and a failed extraction call is caught and yields `[]`;
the drug lists of all items are flattened. -/
def queryDrugList (env : Env) (indication query : String) : List String :=
  match env.search query 10 with
  | .error _ => []
  | .ok result =>
    (result.data.map (fun item =>
      match truthyMarkdown item with
      | none => []
      | some md =>
        match env.drugListBackend indication md with
        | .error _ => []
        | .ok drugs => drugs)).flatten

/-- `discoverDrugsForIndication` (deep-research.ts, lines 306–375): plan the
discovery queries (a failure of this call propagates), then accumulate every
extracted drug name into the insertion-ordered `allDrugs` set and return
`Array.from(allDrugs)`.  The `onProgress` callbacks and the
`completedQueries` counter influence no data flow and are not modelled. -/
def discoverDrugsForIndication (env : Env) (indication : String) :
    Except String (List String) :=
  match env.discoverQueriesBackend indication with
  | .error e => .error e
  | .ok queries =>
    .ok (queries.foldl
      (fun allDrugs query => (queryDrugList env indication query).foldl insertIfAbsent allDrugs)
      [])

/-- The three targeted queries of `researchDrug`
(deep-research.ts, lines 381–385). -/
def researchDrugQueries (drugName : String) : List String :=
  [drugName ++ " clinical trials status development phase",
   drugName ++ " mechanism of action pharmaceutical company",
   drugName ++ " drug modality administration route"]

/-- `researchDrug` (deep-research.ts, lines 380–439): search the three
targeted queries (each failure is caught and simply not pushed onto
`searchResults`), extract a partial `DrugInfo` from every result item with
truthy markdown (each failure is caught and filtered out as `null`), then
issue the final merge call.  The merge call is not wrapped in `try`/`catch`,
so its failure rejects `researchDrug` itself. -/
def researchDrug (env : Env) (drugName : String) : Except String DrugInfo :=
  let searchResults :=
    (researchDrugQueries drugName).filterMap (fun q => (env.search q 5).toOption)
  let drugInfoResults := searchResults.flatMap (fun result =>
    (result.data.filterMap truthyMarkdown).filterMap (fun md =>
      (env.drugInfoBackend drugName md).toOption))
  env.mergeBackend drugName drugInfoResults

/-- The sequential per-drug research loop of `performCompetitorAnalysis`
(deep-research.ts, lines 465–483): drugs are processed one after the other
and a rejection of `researchDrug` (i.e. of its merge call) propagates. -/
def researchAll (env : Env) : List String → Except String (List DrugInfo)
  | [] => .ok []
  | drugName :: rest =>
    match researchDrug env drugName with
    | .error e => .error e
    | .ok info =>
      match researchAll env rest with
      | .error e => .error e
      | .ok infos => .ok (info :: infos)

/-- `performCompetitorAnalysis` (deep-research.ts, lines 441–514): discover
the drugs, research each sequentially, and return the list of records (CSV
serialisation is I/O outside the data flow and is not modelled). -/
def performCompetitorAnalysis (env : Env) (indication : String) :
    Except String (List DrugInfo) :=
  match discoverDrugsForIndication env indication with
  | .error e => .error e
  | .ok drugs => researchAll env drugs

instance {ε α : Type} [DecidableEq ε] [DecidableEq α] : DecidableEq (Except ε α) :=
  fun a b =>
  match a, b with
  | .error e, .error f =>
    if h : e = f then isTrue (by rw [h]) else isFalse (fun c => by cases c; exact h rfl)
  | .error _, .ok _ => isFalse (fun c => Except.noConfusion c)
  | .ok _, .error _ => isFalse (fun c => Except.noConfusion c)
  | .ok x, .ok y =>
    if h : x = y then isTrue (by rw [h]) else isFalse (fun c => by cases c; exact h rfl)

theorem foldl_insertIfAbsent_mem (l : List String) :
    ∀ (acc : List String) (y : String),
      y ∈ l.foldl insertIfAbsent acc ↔ y ∈ acc ∨ y ∈ l := by
  induction l with
  | nil => simp
  | cons x xs ih =>
    intro acc y
    simp only [List.foldl_cons, ih, insertIfAbsent]
    by_cases hx : x ∈ acc
    · simp only [if_pos hx, List.mem_cons]
      constructor
      · rintro (h | h)
        · exact Or.inl h
        · exact Or.inr (Or.inr h)
      · rintro (h | rfl | h)
        · exact Or.inl h
        · exact Or.inl hx
        · exact Or.inr h
    · simp only [if_neg hx, List.mem_append, List.mem_singleton, List.mem_cons]
      tauto

theorem foldl_insertIfAbsent_nodup (l : List String) :
    ∀ acc : List String, acc.Nodup → (l.foldl insertIfAbsent acc).Nodup := by
  induction l with
  | nil => intro acc h; simpa using h
  | cons x xs ih =>
    intro acc h
    refine ih _ ?_
    unfold insertIfAbsent
    by_cases hx : x ∈ acc
    · simpa [hx] using h
    · simp [hx, List.nodup_append, h]

theorem mem_dedupFirst {l : List String} {y : String} : y ∈ dedupFirst l ↔ y ∈ l := by
  unfold dedupFirst
  rw [foldl_insertIfAbsent_mem]
  simp

theorem nodup_dedupFirst (l : List String) : (dedupFirst l).Nodup :=
  foldl_insertIfAbsent_nodup l [] List.nodup_nil

theorem branchStep_searchFail (env : Env) (child : ExploreFn) (breadth depth : Nat)
    (learnings visitedUrls : List String) (level : Nat) (sq : SerpQuery)
    (progress : ResearchProgress) {e : String}
    (h : env.search sq.query 5 = .error e) :
    branchStep env child breadth depth learnings visitedUrls level sq progress =
      .ok (⟨[], []⟩, progress, []) := by
  unfold branchStep
  rw [h]

theorem branchStep_distillFail (env : Env) (child : ExploreFn) (breadth depth : Nat)
    (learnings visitedUrls : List String) (level : Nat) (sq : SerpQuery)
    (progress : ResearchProgress) {result : SearchResponse} {e : String}
    (h : env.search sq.query 5 = .ok result)
    (h2 : processSerpResult env sq.query result 3 (ceilHalf breadth) = .error e) :
    branchStep env child breadth depth learnings visitedUrls level sq progress =
      .ok (⟨[], []⟩, progress, []) := by
  unfold branchStep
  rw [h]
  simp only [h2]

theorem branchStep_terminal (env : Env) (child : ExploreFn) (breadth depth : Nat)
    (learnings visitedUrls : List String) (level : Nat) (sq : SerpQuery)
    (progress : ResearchProgress) {result : SearchResponse} {ext : SerpExtraction}
    (hd : depth - 1 = 0)
    (h : env.search sq.query 5 = .ok result)
    (h2 : processSerpResult env sq.query result 3 (ceilHalf breadth) = .ok ext) :
    branchStep env child breadth depth learnings visitedUrls level sq progress =
      .ok (⟨learnings ++ ext.learnings,
            visitedUrls ++ compactStr (result.data.map (fun item => item.url))⟩,
           terminalReport progress sq,
           [(level, terminalReport progress sq)]) := by
  unfold branchStep
  rw [h]
  simp only [h2, hd]
  rfl

theorem branchStep_recursive (env : Env) (child : ExploreFn) (breadth depth : Nat)
    (learnings visitedUrls : List String) (level : Nat) (sq : SerpQuery)
    (progress : ResearchProgress) {result : SearchResponse} {ext : SerpExtraction}
    (hd : 0 < depth - 1)
    (h : env.search sq.query 5 = .ok result)
    (h2 : processSerpResult env sq.query result 3 (ceilHalf breadth) = .ok ext) :
    branchStep env child breadth depth learnings visitedUrls level sq progress =
      (match child (nextQueryString sq.researchGoal ext.followUpQuestions)
          (ceilHalf breadth) (learnings ++ ext.learnings)
          (visitedUrls ++ compactStr (result.data.map (fun item => item.url)))
          (level + 1) with
       | .error e => .error e
       | .ok (childRes, childTrace) =>
          .ok (childRes, recursiveReport progress sq (depth - 1) (ceilHalf breadth),
               (level, recursiveReport progress sq (depth - 1) (ceilHalf breadth)) ::
                 childTrace)) := by
  unfold branchStep
  rw [h]
  simp only [h2, if_pos hd]

theorem branchStep_child_irrelevant (env : Env) (c₁ c₂ : ExploreFn) (breadth : Nat)
    (learnings visitedUrls : List String) (level : Nat) (sq : SerpQuery)
    (progress : ResearchProgress) {depth : Nat} (hd : depth ≤ 1) :
    branchStep env c₁ breadth depth learnings visitedUrls level sq progress =
    branchStep env c₂ breadth depth learnings visitedUrls level sq progress := by
  unfold branchStep
  cases h : env.search sq.query 5 with
  | error e => rfl
  | ok result =>
    cases h2 : processSerpResult env sq.query result 3 (ceilHalf breadth) with
    | error e => simp only [h2]
    | ok ext =>
      have hngt : ¬ 0 < depth - 1 := by omega
      simp only [h2, if_neg hngt]

theorem runBranchesWith_child_irrelevant (env : Env) (c₁ c₂ : ExploreFn)
    (breadth : Nat) (learnings visitedUrls : List String) (level : Nat)
    {depth : Nat} (hd : depth ≤ 1) :
    ∀ (qs : List SerpQuery) (progress : ResearchProgress),
      runBranchesWith env c₁ breadth depth learnings visitedUrls level qs progress =
      runBranchesWith env c₂ breadth depth learnings visitedUrls level qs progress := by
  intro qs
  induction qs with
  | nil => intro progress; rfl
  | cons sq rest ih =>
    intro progress
    unfold runBranchesWith
    rw [branchStep_child_irrelevant env c₁ c₂ breadth learnings visitedUrls level
      sq progress hd]
    cases branchStep env c₂ breadth depth learnings visitedUrls level sq progress with
    | error e => rfl
    | ok out =>
      obtain ⟨r, progress2, tr⟩ := out
      simp only [ih progress2]

theorem deepResearchStep_child_irrelevant (env : Env) (c₁ c₂ : ExploreFn)
    (query : String) (breadth : Nat) (learnings visitedUrls : List String)
    (level : Nat) {depth : Nat} (hd : depth ≤ 1) :
    deepResearchStep env c₁ query breadth depth learnings visitedUrls level =
    deepResearchStep env c₂ query breadth depth learnings visitedUrls level := by
  unfold deepResearchStep
  cases generateSerpQueries env query breadth learnings with
  | error e => rfl
  | ok qs =>
    simp only [runBranchesWith_child_irrelevant env c₁ c₂ breadth learnings
      visitedUrls level hd qs]

/-- Unfolding equation for `deepResearch` valid at every depth: the recursive
continuation is `deepResearch` at `depth - 1` (at depth 0 the continuation is
dead code, so the placeholder can be replaced by anything). -/
theorem deepResearch_unfold (env : Env) (d : Nat) (query : String) (breadth : Nat)
    (learnings visitedUrls : List String) (level : Nat) :
    deepResearch env d query breadth learnings visitedUrls level =
    deepResearchStep env (deepResearch env (d - 1)) query breadth d
      learnings visitedUrls level := by
  cases d with
  | zero =>
    exact deepResearchStep_child_irrelevant env _ _ query breadth learnings
      visitedUrls level (by omega)
  | succ n => rfl

/-- Whether one branch of a call completes without error: its search call and
its distillation call both succeed.  These are exactly the branches that
report progress for the call: a branch reports once, right after
distillation and before any recursive call, while search and distillation
failures are caught and skip the report. -/
def branchCompletes (env : Env) (breadth : Nat) (sq : SerpQuery) : Bool :=
  match env.search sq.query 5 with
  | .error _ => false
  | .ok result =>
    match processSerpResult env sq.query result 3 (ceilHalf breadth) with
    | .error _ => false
    | .ok _ => true

/-- What one non-rejecting branch does to the shared progress object: either
it was caught (search or distillation failure, `branchCompletes` is false)
and neither reported nor changed anything, or it completed
(`branchCompletes` is true) and reported exactly once for itself —
incrementing `completedQueries` by one and leaving `totalQueries`,
`totalDepth` and `totalBreadth` untouched — followed by the reports of its
recursive child call, all tagged with a strictly deeper level and satisfying
`P`. -/
theorem branchStep_progress (env : Env) (child : ExploreFn) (breadth depth : Nat)
    (learnings visitedUrls : List String) (level : Nat)
    (P : Nat × ResearchProgress → Prop)
    (hchild : 2 ≤ depth → ∀ q' l' v' r' t',
      child q' (ceilHalf breadth) l' v' (level + 1) = .ok (r', t') →
      ∀ e ∈ t', level + 1 ≤ e.1 ∧ P e)
    (sq : SerpQuery) (progress : ResearchProgress)
    (r : ResearchResult) (p2 : ResearchProgress)
    (t1 : List (Nat × ResearchProgress))
    (hb : branchStep env child breadth depth learnings visitedUrls level sq progress =
      .ok (r, p2, t1)) :
    (branchCompletes env breadth sq = false ∧ p2 = progress ∧ t1 = []) ∨
    (branchCompletes env breadth sq = true ∧
     p2.completedQueries = progress.completedQueries + 1 ∧
     p2.totalQueries = progress.totalQueries ∧
     p2.totalDepth = progress.totalDepth ∧
     p2.totalBreadth = progress.totalBreadth ∧
     ∃ ct, t1 = (level, p2) :: ct ∧ ∀ e ∈ ct, level + 1 ≤ e.1 ∧ P e) := by
  unfold branchStep at hb
  rcases hsearch : env.search sq.query 5 with e | result
  · have hflag : branchCompletes env breadth sq = false := by
      unfold branchCompletes
      rw [hsearch]
    rw [hsearch] at hb
    simp only [Except.ok.injEq, Prod.mk.injEq] at hb
    exact Or.inl ⟨hflag, hb.2.1.symm, hb.2.2.symm⟩
  · rw [hsearch] at hb
    rcases hdistill : processSerpResult env sq.query result 3 (ceilHalf breadth)
      with e | ext
    · have hflag : branchCompletes env breadth sq = false := by
        unfold branchCompletes
        rw [hsearch]
        simp only [hdistill]
      simp only [hdistill, Except.ok.injEq, Prod.mk.injEq] at hb
      exact Or.inl ⟨hflag, hb.2.1.symm, hb.2.2.symm⟩
    · have hflag : branchCompletes env breadth sq = true := by
        unfold branchCompletes
        rw [hsearch]
        simp only [hdistill]
      simp only [hdistill] at hb
      by_cases hd : 0 < depth - 1
      · rw [if_pos hd] at hb
        rcases hc : child (nextQueryString sq.researchGoal ext.followUpQuestions)
            (ceilHalf breadth) (learnings ++ ext.learnings)
            (visitedUrls ++ compactStr (result.data.map (fun item => item.url)))
            (level + 1) with e | cres
        · rw [hc] at hb
          exact absurd hb (by simp)
        · obtain ⟨cr, ct⟩ := cres
          rw [hc] at hb
          simp only [Except.ok.injEq, Prod.mk.injEq] at hb
          obtain ⟨-, hp, ht⟩ := hb
          refine Or.inr ?_
          rw [← hp, ← ht]
          refine ⟨hflag, rfl, rfl, rfl, rfl, ct, rfl, ?_⟩
          exact hchild (by omega) _ _ _ _ _ hc
      · rw [if_neg hd] at hb
        simp only [Except.ok.injEq, Prod.mk.injEq] at hb
        obtain ⟨-, hp, ht⟩ := hb
        refine Or.inr ?_
        rw [← hp, ← ht]
        exact ⟨hflag, rfl, rfl, rfl, rfl, [], rfl, by simp⟩

/-- Trace and progress invariant of one call's branch loop: the surviving
branches only ever increment `completedQueries` of the shared progress
object — one own-level report per branch that completes without error, so
the total increment is exactly the number of sub-queries satisfying
`branchCompletes` — never touch `totalQueries`, `totalDepth` or
`totalBreadth`, and every snapshot reported by a descendant call carries a
strictly deeper level and satisfies `P`. -/
theorem runBranchesWith_spec (env : Env) (child : ExploreFn) (breadth depth : Nat)
    (learnings visitedUrls : List String) (level : Nat)
    (P : Nat × ResearchProgress → Prop)
    (hchild : 2 ≤ depth → ∀ q' l' v' r' t',
      child q' (ceilHalf breadth) l' v' (level + 1) = .ok (r', t') →
      ∀ e ∈ t', level + 1 ≤ e.1 ∧ P e) :
    ∀ (qs : List SerpQuery) (progress : ResearchProgress)
      (rs : List ResearchResult) (p : ResearchProgress)
      (tr : List (Nat × ResearchProgress)),
      runBranchesWith env child breadth depth learnings visitedUrls level qs progress =
        .ok (rs, p, tr) →
      (qs.filter (fun sq => branchCompletes env breadth sq)).length ≤ qs.length ∧
        p.completedQueries = progress.completedQueries +
          (qs.filter (fun sq => branchCompletes env breadth sq)).length ∧
        p.totalQueries = progress.totalQueries ∧
        p.totalDepth = progress.totalDepth ∧
        p.totalBreadth = progress.totalBreadth ∧
        ((tr.filter (fun e => e.1 == level)).map (fun e => e.2.completedQueries) =
          (List.range
            ((qs.filter (fun sq => branchCompletes env breadth sq)).length)).map
            (fun i => progress.completedQueries + 1 + i)) ∧
        (∀ e ∈ tr, (e.1 = level ∧
            e.2.totalQueries = progress.totalQueries ∧
            e.2.totalDepth = progress.totalDepth ∧
            e.2.totalBreadth = progress.totalBreadth) ∨
          (level + 1 ≤ e.1 ∧ P e)) := by
  intro qs
  induction qs with
  | nil =>
    intro progress rs p tr h
    unfold runBranchesWith at h
    simp only [Except.ok.injEq, Prod.mk.injEq] at h
    obtain ⟨-, hp, ht⟩ := h
    exact ⟨by simp, by rw [← hp]; simp, by rw [← hp], by rw [← hp], by rw [← hp],
      by rw [← ht]; simp, by rw [← ht]; simp⟩
  | cons sq rest ih =>
    intro progress rs p tr h
    unfold runBranchesWith at h
    split at h
    · exact Except.noConfusion h
    case _ r progress2 t1 hb =>
      split at h
      · exact Except.noConfusion h
      case _ rs2 p2 t2 hrest =>
        simp only [Except.ok.injEq, Prod.mk.injEq] at h
        obtain ⟨-, hp, ht⟩ := h
        obtain ⟨hk, hpc, hpq, hpd, hpb, hfilter, hmem⟩ := ih progress2 rs2 p2 t2 hrest
        rcases branchStep_progress env child breadth depth learnings visitedUrls
            level P hchild sq progress r progress2 t1 hb with
          ⟨hflag, hpeq, hteq⟩ | ⟨hflag, hc1, hcq, hcd, hcb, ct, ht1, hct⟩
        · have hfc : (sq :: rest).filter (fun sq => branchCompletes env breadth sq) =
              rest.filter (fun sq => branchCompletes env breadth sq) := by
            simp [List.filter_cons, hflag]
          subst hpeq
          subst hteq
          rw [hfc]
          refine ⟨by simp; omega, ?_, ?_, ?_, ?_, ?_, ?_⟩
          · rw [← hp]; exact hpc
          · rw [← hp]; exact hpq
          · rw [← hp]; exact hpd
          · rw [← hp]; exact hpb
          · rw [← ht]; simpa using hfilter
          · rw [← ht]; simpa using hmem
        · have hfc : (sq :: rest).filter (fun sq => branchCompletes env breadth sq) =
              sq :: rest.filter (fun sq => branchCompletes env breadth sq) := by
            simp [List.filter_cons, hflag]
          rw [hfc]
          simp only [List.length_cons]
          refine ⟨by simp; omega, ?_, ?_, ?_, ?_, ?_, ?_⟩
          · rw [← hp, hpc, hc1]; omega
          · rw [← hp, hpq, hcq]
          · rw [← hp, hpd, hcd]
          · rw [← hp, hpb, hcb]
          · rw [← ht, ht1]
            have hctf : ct.filter (fun e => e.1 == level) = [] := by
              rw [List.filter_eq_nil_iff]
              intro e he
              have := (hct e he).1
              simp only [beq_iff_eq]
              omega
            simp only [List.filter_append, List.cons_append, List.filter_cons]
            simp only [beq_self_eq_true, if_true, hctf, List.nil_append,
              List.map_cons, hfilter, hc1]
            rw [List.range_succ_eq_map]
            simp only [List.map_cons, List.map_map]
            refine List.cons_eq_cons.mpr ⟨by omega, ?_⟩
            apply List.map_congr_left
            intro i hi
            simp only [Function.comp_apply]
            omega
          · rw [← ht, ht1]
            intro e he
            simp only [List.cons_append, List.mem_cons, List.mem_append] at he
            rcases he with rfl | he | he
            · exact Or.inl ⟨rfl, hcq, hcd, hcb⟩
            · exact Or.inr (hct e he)
            · rcases hmem e he with ⟨h1, h2, h3, h4⟩ | hr
              · exact Or.inl ⟨h1, by rw [h2, hcq], by rw [h3, hcd], by rw [h4, hcb]⟩
              · exact Or.inr hr

/-- Shape of a snapshot in the trace of a `deepResearch` call entered at
recursion level `level` with the given `breadth` and `depth` arguments: a
snapshot at relative level `i = e.1 - level` belongs to a descendant call
whose breadth argument is the `i`-fold ceiling-halved breadth and whose
depth argument is `depth - i`, and relative levels never exceed `depth - 1`. -/
def GoodEntry (breadth depth level : Nat) (e : Nat × ResearchProgress) : Prop :=
  level ≤ e.1 ∧ e.1 ≤ level + (depth - 1) ∧
  e.2.totalBreadth = ceilHalf^[e.1 - level] breadth ∧
  e.2.totalDepth = depth - (e.1 - level)

theorem deepResearchStep_trace_good (env : Env) (child : ExploreFn)
    (query : String) (breadth depth : Nat) (learnings visitedUrls : List String)
    (level : Nat)
    (hchild : 2 ≤ depth → ∀ q' l' v' r' t',
      child q' (ceilHalf breadth) l' v' (level + 1) = .ok (r', t') →
      ∀ e ∈ t', level + 1 ≤ e.1 ∧ GoodEntry breadth depth level e)
    (r : ResearchResult) (tr : List (Nat × ResearchProgress))
    (h : deepResearchStep env child query breadth depth learnings visitedUrls level =
      .ok (r, tr)) :
    ∀ e ∈ tr, GoodEntry breadth depth level e := by
  unfold deepResearchStep at h
  split at h
  · exact Except.noConfusion h
  case _ qs hplan =>
    split at h
    · exact Except.noConfusion h
    case _ results p trace hrun =>
      simp only [Except.ok.injEq, Prod.mk.injEq] at h
      obtain ⟨-, ht⟩ := h
      intro e he
      rw [← ht] at he
      rcases List.mem_cons.mp he with rfl | he
      · exact ⟨le_refl level, by omega, by simp [initialProgress],
          by simp [initialProgress]⟩
      · obtain ⟨-, -, -, -, -, -, hmem⟩ :=
          runBranchesWith_spec env child breadth depth learnings visitedUrls level
            (GoodEntry breadth depth level) hchild qs
            (initialProgress breadth depth qs) results p trace hrun
        rcases hmem e he with ⟨h1, -, h3, h4⟩ | ⟨-, hP⟩
        · refine ⟨le_of_eq h1.symm, by omega, ?_, ?_⟩
          · rw [h4, h1]
            simp [initialProgress]
          · rw [h3, h1]
            simp [initialProgress]
        · exact hP

theorem deepResearch_trace_good (env : Env) :
    ∀ (d : Nat) (query : String) (breadth : Nat)
      (learnings visitedUrls : List String) (level : Nat)
      (r : ResearchResult) (tr : List (Nat × ResearchProgress)),
      deepResearch env d query breadth learnings visitedUrls level = .ok (r, tr) →
      ∀ e ∈ tr, GoodEntry breadth d level e := by
  intro d
  induction d with
  | zero =>
    intro query breadth learnings visitedUrls level r tr h
    exact deepResearchStep_trace_good env _ query breadth 0 learnings visitedUrls
      level (by omega) r tr h
  | succ n ih =>
    intro query breadth learnings visitedUrls level r tr h
    refine deepResearchStep_trace_good env (deepResearch env n) query breadth (n + 1)
      learnings visitedUrls level ?_ r tr h
    intro hdepth q' l' v' r' t' hc e he
    have hgood := ih q' (ceilHalf breadth) l' v' (level + 1) r' t' hc e he
    obtain ⟨hle, hub, hbr, hdp⟩ := hgood
    have hn : 1 ≤ n := by omega
    refine ⟨hle, ⟨by omega, by omega, ?_, ?_⟩⟩
    · rw [hbr]
      have : e.1 - level = (e.1 - (level + 1)) + 1 := by omega
      rw [this, Function.iterate_succ_apply]
    · rw [hdp]
      omega

/-- `Math.ceil(b / 2)` iterated `i` times is `Math.ceil(b / 2^i)`. -/
theorem ceilHalf_iterate (i b : Nat) : ceilHalf^[i] b = (b + 2 ^ i - 1) / 2 ^ i := by
  induction i with
  | zero => simp
  | succ n ih =>
    rw [Function.iterate_succ_apply', ih]
    unfold ceilHalf
    have h1 : 1 ≤ 2 ^ n := Nat.one_le_pow n 2 (by omega)
    have h2 : (b + 2 ^ n - 1) / 2 ^ n + 1 = (b + 2 ^ n - 1 + 2 ^ n) / 2 ^ n :=
      (Nat.add_div_right _ (by positivity)).symm
    rw [h2, Nat.div_div_eq_div_mul]
    have h3 : b + 2 ^ n - 1 + 2 ^ n = b + 2 ^ (n + 1) - 1 := by
      rw [pow_succ]
      omega
    rw [h3, pow_succ]

/-- The snapshots a `deepResearch` call reports for its own freshly created
progress object (the trace entries at the call's own level): their
`completedQueries` values are exactly `0, 1, …, k`, where `k` is the number
of this call's planned sub-queries whose branch completed without error
(search and distillation both succeeded), and their `totalQueries` is pinned
to the number of sub-queries the call's planning step returned. -/
theorem deepResearch_own_progress (env : Env) (d : Nat) (query : String)
    (breadth : Nat) (learnings visitedUrls : List String) (level : Nat)
    (r : ResearchResult) (tr : List (Nat × ResearchProgress))
    (h : deepResearch env d query breadth learnings visitedUrls level = .ok (r, tr)) :
    ∃ qs, generateSerpQueries env query breadth learnings = .ok qs ∧
      (qs.filter (fun sq => branchCompletes env breadth sq)).length ≤ qs.length ∧
      ((tr.filter (fun e => e.1 == level)).map (fun e => e.2.completedQueries) =
        List.range
          ((qs.filter (fun sq => branchCompletes env breadth sq)).length + 1)) ∧
      (∀ e ∈ tr, e.1 = level → e.2.totalQueries = qs.length) := by
  rw [deepResearch_unfold] at h
  unfold deepResearchStep at h
  split at h
  · exact Except.noConfusion h
  case _ qs hplan =>
    split at h
    · exact Except.noConfusion h
    case _ results p trace hrun =>
      simp only [Except.ok.injEq, Prod.mk.injEq] at h
      obtain ⟨-, ht⟩ := h
      have hchild : 2 ≤ d → ∀ q' l' v' r' t',
          deepResearch env (d - 1) q' (ceilHalf breadth) l' v' (level + 1) =
            .ok (r', t') →
          ∀ e ∈ t', level + 1 ≤ e.1 ∧ True := by
        intro hd q' l' v' r' t' hc e he
        exact ⟨(deepResearch_trace_good env (d - 1) q' (ceilHalf breadth) l' v'
          (level + 1) r' t' hc e he).1, trivial⟩
      obtain ⟨hk, hpc, hpq, hpd, hpb, hfilter, hmem⟩ :=
        runBranchesWith_spec env (deepResearch env (d - 1)) breadth d learnings
          visitedUrls level (fun _ => True) hchild qs
          (initialProgress breadth d qs) results p trace hrun
      refine ⟨qs, hplan, hk, ?_, ?_⟩
      · rw [← ht]
        simp only [List.filter_cons, beq_self_eq_true, if_true, List.map_cons]
        rw [hfilter]
        simp only [initialProgress]
        rw [List.range_succ_eq_map]
        refine List.cons_eq_cons.mpr ⟨rfl, ?_⟩
        apply List.map_congr_left
        intro i hi
        omega
      · rw [← ht]
        intro e he hlvl
        rcases List.mem_cons.mp he with rfl | he
        · simp [initialProgress]
        · rcases hmem e he with ⟨-, h2, -, -⟩ | ⟨hge, -⟩
          · rw [h2]
            simp [initialProgress]
          · omega

/-- The search response served by the all-succeeding test backend. -/
def sampleResponse : SearchResponse := ⟨[⟨some "https://u1", some "content1"⟩]⟩

/-- A deterministic environment in which every backend call succeeds: the
planner always returns one sub-query, every search finds one page and the
distiller always extracts one learning and one follow-up question. -/
def envAllOk : Env :=
  { planBackend := fun _ _ => .ok [⟨"q", "g"⟩]
    search := fun _ _ => .ok sampleResponse
    distillBackend := fun _ _ _ _ => .ok ⟨["L"], ["F"]⟩
    discoverQueriesBackend := fun _ => .error "unused"
    drugListBackend := fun _ _ => .error "unused"
    drugInfoBackend := fun _ _ => .error "unused"
    mergeBackend := fun _ _ => .error "unused" }

/-- Like `envAllOk`, except that planning fails on every call that carries
accumulated learnings — i.e. exactly on the recursive calls, whose
accumulated-learnings context is non-empty, while the top-level call (empty
accumulated learnings) plans successfully. -/
def envChildPlanFail : Env :=
  { envAllOk with
    planBackend := fun _ learnings =>
      if learnings = [] then .ok [⟨"q1", "g1"⟩] else .error "planning failed" }

/-- C9: within any single `deepResearch` invocation, the two `reportProgress`
update shapes overwrite only `currentDepth`, `currentBreadth`,
`currentQuery`, `totalQueries` and `completedQueries`, and every snapshot of
the invocation's own progress object still carries the initialisation values
`totalDepth = depth` and `totalBreadth = breadth` of that invocation's
arguments. -/
theorem deepResearch_totals_frame :
    (∀ (progress : ResearchProgress) (sq : SerpQuery) (nd nb : Nat),
      (recursiveReport progress sq nd nb).totalDepth = progress.totalDepth ∧
      (recursiveReport progress sq nd nb).totalBreadth = progress.totalBreadth) ∧
    (∀ (progress : ResearchProgress) (sq : SerpQuery),
      (terminalReport progress sq).totalDepth = progress.totalDepth ∧
      (terminalReport progress sq).totalBreadth = progress.totalBreadth) ∧
    (∀ (env : Env) (d : Nat) (query : String) (breadth : Nat)
      (learnings visitedUrls : List String) (level : Nat)
      (r : ResearchResult) (tr : List (Nat × ResearchProgress)),
      deepResearch env d query breadth learnings visitedUrls level = .ok (r, tr) →
      ∀ e ∈ tr, e.1 = level → e.2.totalDepth = d ∧ e.2.totalBreadth = breadth) := by
  refine ⟨fun _ _ _ _ => ⟨rfl, rfl⟩, fun _ _ => ⟨rfl, rfl⟩, ?_⟩
  intro env d query breadth learnings visitedUrls level r tr h e he hlvl
  obtain ⟨-, -, hbr, hdp⟩ := deepResearch_trace_good env d query breadth learnings
    visitedUrls level r tr h e he
  have h0 : e.1 - level = 0 := by omega
  rw [h0] at hbr hdp
  exact ⟨by simpa using hdp, by simpa using hbr⟩

/-- Witness for `deepResearch_totals_frame`: a depth-1, breadth-2 run whose
own snapshots all keep `totalDepth = 1` and `totalBreadth = 2`. -/
theorem deepResearch_totals_frame_witness :
    ∃ (r : ResearchResult) (tr : List (Nat × ResearchProgress)),
      deepResearch envAllOk 1 "seed" 2 [] [] 0 = .ok (r, tr) ∧
      ∀ e ∈ tr, e.1 = 0 → e.2.totalDepth = 1 ∧ e.2.totalBreadth = 2 :=
  ⟨_, _, rfl, deepResearch_totals_frame.2.2 envAllOk 1 "seed" 2 [] [] 0 _ _ rfl⟩

/-- C2 fails on the code: each recursive `deepResearch` call creates a fresh
progress object whose `completedQueries` restarts at 0, so the observer
stream is not monotone.  Concrete input: `envAllOk`, depth 2, breadth 1.
The full observer stream (tagged with the level of the owning call) is
`[(0,0), (0,1), (1,0), (1,1)]`: after the top-level call reports
`completedQueries = 1`, the recursive call's first report delivers
`completedQueries = 0` again, and the final snapshot reports 1 even though
two branch invocations (one per level) were executed. -/
theorem progress_stream_not_monotone :
    (deepResearch envAllOk 2 "seed" 1 [] [] 0).toOption.map
        (fun res => res.2.map (fun e => (e.1, e.2.completedQueries))) =
      some [(0, 0), (0, 1), (1, 0), (1, 1)] ∧
    ¬ List.Chain' (· ≤ ·) ([0, 1, 0, 1] : List Nat) :=
  ⟨by decide, by simp [List.chain'_cons]⟩

/-- C2 (amended): every `deepResearch` call — top-level or recursive — owns a
fresh `ResearchProgress` object.  Let `qs` be the sub-queries this call's
planning step returned and `k` the number of entries of `qs` whose branch
completed without error (`branchCompletes`: search and distillation both
succeeded — under a run that returned `.ok` these are exactly the branches
that reported).  Restricted to the snapshots of this call's own object,
`completedQueries` climbs exactly `0, 1, …, k` monotonically, never exceeds
`totalQueries` — which every own snapshot pins to `qs.length`, the call's
planned sub-query count — and its final value is exactly `k`: it does not
count the branch invocations of descendant calls, which report to their own
objects at deeper levels. -/
theorem deepResearch_progress_per_call (env : Env) (d : Nat) (query : String)
    (breadth : Nat) (learnings visitedUrls : List String) (level : Nat)
    (r : ResearchResult) (tr : List (Nat × ResearchProgress))
    (h : deepResearch env d query breadth learnings visitedUrls level = .ok (r, tr)) :
    ∃ qs, generateSerpQueries env query breadth learnings = .ok qs ∧
      (qs.filter (fun sq => branchCompletes env breadth sq)).length ≤ qs.length ∧
      ((tr.filter (fun e => e.1 == level)).map (fun e => e.2.completedQueries) =
        List.range
          ((qs.filter (fun sq => branchCompletes env breadth sq)).length + 1)) ∧
      List.Chain' (· ≤ ·)
        ((tr.filter (fun e => e.1 == level)).map (fun e => e.2.completedQueries)) ∧
      (∀ e ∈ tr, e.1 = level →
        e.2.completedQueries ≤ e.2.totalQueries ∧
        e.2.totalQueries = qs.length) ∧
      ((tr.filter (fun e => e.1 == level)).map
        (fun e => e.2.completedQueries)).getLast? =
        some ((qs.filter (fun sq => branchCompletes env breadth sq)).length) := by
  obtain ⟨qs, hplan, hkn, hfil, htq⟩ := deepResearch_own_progress env d query breadth
    learnings visitedUrls level r tr h
  refine ⟨qs, hplan, hkn, hfil, ?_, ?_, ?_⟩
  · rw [hfil]
    exact (List.chain'_range_succ (· ≤ ·) _).mpr (fun m _ => Nat.le_succ m)
  · intro e he hlvl
    refine ⟨?_, htq e he hlvl⟩
    have hmem : e.2.completedQueries ∈
        (tr.filter (fun e => e.1 == level)).map (fun e => e.2.completedQueries) :=
      List.mem_map_of_mem _ (List.mem_filter.mpr ⟨he, by simp [hlvl]⟩)
    rw [hfil] at hmem
    have h1 := List.mem_range.mp hmem
    have h2 := htq e he hlvl
    omega
  · rw [hfil, List.range_succ]
    exact List.getLast?_concat _

/-- Witness for `deepResearch_progress_per_call`: the top-level object of a
depth-1, breadth-2 run — one planned sub-query, one completing branch, own
`completedQueries` stream `[0, 1]` with `totalQueries = 1`. -/
theorem deepResearch_progress_per_call_witness :
    ∃ (r : ResearchResult) (tr : List (Nat × ResearchProgress)),
      deepResearch envAllOk 1 "seed" 2 [] [] 0 = .ok (r, tr) ∧
      ∃ qs, generateSerpQueries envAllOk "seed" 2 [] = .ok qs ∧
        (qs.filter (fun sq => branchCompletes envAllOk 2 sq)).length ≤ qs.length ∧
        ((tr.filter (fun e => e.1 == 0)).map (fun e => e.2.completedQueries) =
          List.range
            ((qs.filter (fun sq => branchCompletes envAllOk 2 sq)).length + 1)) ∧
        List.Chain' (· ≤ ·)
          ((tr.filter (fun e => e.1 == 0)).map (fun e => e.2.completedQueries)) ∧
        (∀ e ∈ tr, e.1 = 0 →
          e.2.completedQueries ≤ e.2.totalQueries ∧
          e.2.totalQueries = qs.length) ∧
        ((tr.filter (fun e => e.1 == 0)).map
          (fun e => e.2.completedQueries)).getLast? =
          some ((qs.filter (fun sq => branchCompletes envAllOk 2 sq)).length) :=
  ⟨_, _, rfl, deepResearch_progress_per_call envAllOk 1 "seed" 2 [] [] 0 _ _ rfl⟩

/-- An environment whose explorer-facing backends always succeed and whose
planner always proposes at least one sub-query. -/
structure EnvTotal (env : Env) : Prop where
  planOk : ∀ q l, ∃ qs, env.planBackend q l = .ok qs ∧ qs ≠ []
  searchOk : ∀ q n, ∃ r, env.search q n = .ok r
  distillOk : ∀ q c nl nf, ∃ o, env.distillBackend q c nl nf = .ok o

theorem branchStep_total (env : Env) (child : ExploreFn) (breadth depth : Nat)
    (learnings visitedUrls : List String) (level : Nat) (sq : SerpQuery)
    (progress : ResearchProgress)
    (hs : ∀ q n, ∃ r, env.search q n = .ok r)
    (hdis : ∀ q c nl nf, ∃ o, env.distillBackend q c nl nf = .ok o)
    (hc : 2 ≤ depth → ∀ q' l' v',
      ∃ res, child q' (ceilHalf breadth) l' v' (level + 1) = .ok res) :
    ∃ out, branchStep env child breadth depth learnings visitedUrls level sq progress =
      .ok out := by
  obtain ⟨res0, hres⟩ := hs sq.query 5
  obtain ⟨ext, hext⟩ := hdis sq.query
    ((compactStr (res0.data.map (fun item => item.markdown))).map
      (fun content => trimPrompt content 25000)) 3 (ceilHalf breadth)
  have hps : processSerpResult env sq.query res0 3 (ceilHalf breadth) = .ok ext := hext
  by_cases hdep : 0 < depth - 1
  · obtain ⟨⟨cr, ct⟩, hcr⟩ := hc (by omega)
      (nextQueryString sq.researchGoal ext.followUpQuestions)
      (learnings ++ ext.learnings)
      (visitedUrls ++ compactStr (res0.data.map (fun item => item.url)))
    refine ⟨(cr, recursiveReport progress sq (depth - 1) (ceilHalf breadth),
      (level, recursiveReport progress sq (depth - 1) (ceilHalf breadth)) :: ct), ?_⟩
    rw [branchStep_recursive env child breadth depth learnings visitedUrls level
      sq progress hdep hres hps, hcr]
  · exact ⟨_, branchStep_terminal env child breadth depth learnings visitedUrls level
      sq progress (by omega) hres hps⟩

theorem runBranchesWith_total (env : Env) (child : ExploreFn) (breadth depth : Nat)
    (learnings visitedUrls : List String) (level : Nat)
    (hs : ∀ q n, ∃ r, env.search q n = .ok r)
    (hdis : ∀ q c nl nf, ∃ o, env.distillBackend q c nl nf = .ok o)
    (hc : 2 ≤ depth → ∀ q' l' v',
      ∃ res, child q' (ceilHalf breadth) l' v' (level + 1) = .ok res) :
    ∀ (qs : List SerpQuery) (progress : ResearchProgress),
      ∃ out, runBranchesWith env child breadth depth learnings visitedUrls level
        qs progress = .ok out := by
  intro qs
  induction qs with
  | nil => exact fun progress => ⟨([], progress, []), rfl⟩
  | cons sq rest ih =>
    intro progress
    obtain ⟨⟨r, p2, t1⟩, hb⟩ := branchStep_total env child breadth depth learnings
      visitedUrls level sq progress hs hdis hc
    obtain ⟨⟨rs, p3, t2⟩, hr⟩ := ih p2
    refine ⟨(r :: rs, p3, t1 ++ t2), ?_⟩
    unfold runBranchesWith
    rw [hb]
    simp only [hr]

theorem deepResearchStep_total (env : Env) (child : ExploreFn) (query : String)
    (breadth depth : Nat) (learnings visitedUrls : List String) (level : Nat)
    (ht : EnvTotal env)
    (hc : 2 ≤ depth → ∀ q' l' v',
      ∃ res, child q' (ceilHalf breadth) l' v' (level + 1) = .ok res) :
    ∃ r tr, deepResearchStep env child query breadth depth learnings visitedUrls
      level = .ok (r, tr) := by
  obtain ⟨qs0, hqs0, -⟩ := ht.planOk query learnings
  have hg : generateSerpQueries env query breadth learnings = .ok (qs0.take breadth) := by
    unfold generateSerpQueries
    rw [hqs0]
  obtain ⟨⟨results, p, trace⟩, hrun⟩ := runBranchesWith_total env child breadth depth
    learnings visitedUrls level ht.searchOk ht.distillOk hc (qs0.take breadth)
    (initialProgress breadth depth (qs0.take breadth))
  refine ⟨⟨dedupFirst (results.flatMap ResearchResult.learnings),
    dedupFirst (results.flatMap ResearchResult.visitedUrls)⟩,
    (level, initialProgress breadth depth (qs0.take breadth)) :: trace, ?_⟩
  unfold deepResearchStep
  rw [hg]
  simp only [hrun]

theorem deepResearch_total (env : Env) (ht : EnvTotal env) :
    ∀ (d : Nat) (query : String) (breadth : Nat)
      (learnings visitedUrls : List String) (level : Nat),
      ∃ r tr, deepResearch env d query breadth learnings visitedUrls level =
        .ok (r, tr) := by
  intro d
  induction d with
  | zero =>
    intro query breadth learnings visitedUrls level
    rw [deepResearch_unfold]
    exact deepResearchStep_total env _ query breadth 0 learnings visitedUrls level ht
      (by omega)
  | succ n ih =>
    intro query breadth learnings visitedUrls level
    rw [deepResearch_unfold]
    simp only [Nat.add_sub_cancel]
    refine deepResearchStep_total env _ query breadth (n + 1) learnings visitedUrls
      level ht ?_
    intro _ q' l' v'
    obtain ⟨r, tr, h⟩ := ih q' (ceilHalf breadth) l' v' (level + 1)
    exact ⟨(r, tr), h⟩

/-- Every successful `deepResearch` call's trace starts with the first report
of its own freshly initialised progress object. -/
theorem deepResearch_trace_head (env : Env) (d : Nat) (query : String)
    (breadth : Nat) (learnings visitedUrls : List String) (level : Nat)
    (r : ResearchResult) (tr : List (Nat × ResearchProgress))
    (h : deepResearch env d query breadth learnings visitedUrls level = .ok (r, tr)) :
    ∃ qs rest, generateSerpQueries env query breadth learnings = .ok qs ∧
      tr = (level, initialProgress breadth d qs) :: rest := by
  rw [deepResearch_unfold] at h
  unfold deepResearchStep at h
  split at h
  · exact Except.noConfusion h
  case _ qs hplan =>
    split at h
    · exact Except.noConfusion h
    case _ results p trace hrun =>
      simp only [Except.ok.injEq, Prod.mk.injEq] at h
      exact ⟨qs, trace, hplan, h.2.symm⟩

/-- Under always-succeeding backends with a non-trivial planner and
`breadth ≥ 1`, a `deepResearch` call reports a snapshot at relative
recursion level `depth - 1` (by `deepResearch_trace_good`, never deeper):
the number of recursion levels actually reached is `depth - 1`, truncated at
zero. -/
theorem deepResearch_reach (env : Env) (ht : EnvTotal env) :
    ∀ (d : Nat) (query : String) (breadth : Nat)
      (learnings visitedUrls : List String) (level : Nat), 1 ≤ breadth →
      ∃ r tr, deepResearch env d query breadth learnings visitedUrls level =
        .ok (r, tr) ∧ (level + (d - 1)) ∈ tr.map Prod.fst := by
  intro d
  induction d with
  | zero =>
    intro query breadth learnings visitedUrls level hb
    obtain ⟨r, tr, h⟩ := deepResearch_total env ht 0 query breadth learnings
      visitedUrls level
    obtain ⟨qs, rest, -, htr⟩ := deepResearch_trace_head env 0 query breadth
      learnings visitedUrls level r tr h
    exact ⟨r, tr, h, by rw [htr]; simp⟩
  | succ n ih =>
    intro query breadth learnings visitedUrls level hb
    rcases Nat.eq_zero_or_pos n with rfl | hn
    · obtain ⟨r, tr, h⟩ := deepResearch_total env ht 1 query breadth learnings
        visitedUrls level
      obtain ⟨qs, rest, -, htr⟩ := deepResearch_trace_head env 1 query breadth
        learnings visitedUrls level r tr h
      exact ⟨r, tr, h, by rw [htr]; simp⟩
    · obtain ⟨qs0, hqs0, hqne⟩ := ht.planOk query learnings
      have hg : generateSerpQueries env query breadth learnings =
          .ok (qs0.take breadth) := by
        unfold generateSerpQueries
        rw [hqs0]
      obtain ⟨sq, qrest, hqs⟩ : ∃ sq qrest, qs0.take breadth = sq :: qrest := by
        cases qs0 with
        | nil => exact absurd rfl hqne
        | cons a as =>
          cases breadth with
          | zero => omega
          | succ b2 => exact ⟨a, as.take b2, rfl⟩
      rw [hqs] at hg
      obtain ⟨res0, hres⟩ := ht.searchOk sq.query 5
      obtain ⟨ext, hext⟩ := ht.distillOk sq.query
        ((compactStr (res0.data.map (fun item => item.markdown))).map
          (fun content => trimPrompt content 25000)) 3 (ceilHalf breadth)
      have hps : processSerpResult env sq.query res0 3 (ceilHalf breadth) = .ok ext :=
        hext
      have hcb : 1 ≤ ceilHalf breadth := by unfold ceilHalf; omega
      obtain ⟨rc, tc, hcrun, hcmem⟩ := ih
        (nextQueryString sq.researchGoal ext.followUpQuestions) (ceilHalf breadth)
        (learnings ++ ext.learnings)
        (visitedUrls ++ compactStr (res0.data.map (fun item => item.url)))
        (level + 1) hcb
      have hdep : 0 < (n + 1) - 1 := by omega
      have hb1 : branchStep env (deepResearch env n) breadth (n + 1) learnings
          visitedUrls level sq (initialProgress breadth (n + 1) (sq :: qrest)) =
          .ok (rc,
            recursiveReport (initialProgress breadth (n + 1) (sq :: qrest)) sq n
              (ceilHalf breadth),
            (level, recursiveReport (initialProgress breadth (n + 1) (sq :: qrest))
              sq n (ceilHalf breadth)) :: tc) := by
        rw [branchStep_recursive env (deepResearch env n) breadth (n + 1) learnings
          visitedUrls level sq _ hdep hres hps, hcrun]
        rfl
      have hcrest : 2 ≤ n + 1 → ∀ q' l' v',
          ∃ res, deepResearch env n q' (ceilHalf breadth) l' v' (level + 1) =
            .ok res := by
        intro _ q' l' v'
        obtain ⟨r', tr', h'⟩ := deepResearch_total env ht n q' (ceilHalf breadth) l'
          v' (level + 1)
        exact ⟨(r', tr'), h'⟩
      obtain ⟨⟨rs2, p3, t2⟩, hrest⟩ := runBranchesWith_total env (deepResearch env n)
        breadth (n + 1) learnings visitedUrls level ht.searchOk ht.distillOk hcrest
        qrest (recursiveReport (initialProgress breadth (n + 1) (sq :: qrest)) sq n
          (ceilHalf breadth))
      have hfull : runBranchesWith env (deepResearch env n) breadth (n + 1) learnings
          visitedUrls level (sq :: qrest)
          (initialProgress breadth (n + 1) (sq :: qrest)) =
          .ok (rc :: rs2, p3,
            ((level, recursiveReport (initialProgress breadth (n + 1) (sq :: qrest))
              sq n (ceilHalf breadth)) :: tc) ++ t2) := by
        unfold runBranchesWith
        rw [hb1]
        simp only [hrest]
      refine ⟨⟨dedupFirst ((rc :: rs2).flatMap ResearchResult.learnings),
        dedupFirst ((rc :: rs2).flatMap ResearchResult.visitedUrls)⟩,
        (level, initialProgress breadth (n + 1) (sq :: qrest)) ::
          (((level, recursiveReport (initialProgress breadth (n + 1) (sq :: qrest))
            sq n (ceilHalf breadth)) :: tc) ++ t2), ?_, ?_⟩
      · rw [deepResearch_unfold]
        simp only [Nat.add_sub_cancel]
        unfold deepResearchStep
        rw [hg]
        simp only [hfull]
      · have htarget : level + (n + 1 - 1) = level + 1 + (n - 1) := by omega
        rw [htarget]
        simp only [List.map_cons, List.map_append, List.mem_cons, List.mem_append]
        exact Or.inr (Or.inl (Or.inr hcmem))

theorem envAllOk_total : EnvTotal envAllOk where
  planOk := fun _ _ => ⟨[⟨"q", "g"⟩], rfl, by simp⟩
  searchOk := fun _ _ => ⟨sampleResponse, rfl⟩
  distillOk := fun _ _ _ _ => ⟨⟨["L"], ["F"]⟩, rfl⟩

/-- C3's level-count formula fails on the code.  Concrete input: `envAllOk`
(all backends succeed, planner always returns one query), breadth 1,
depth 1.  Breadth never underflows below 1 (`ceilHalf 1 = 1`, so
`ceil(1 / 2^i) = 1` at every level), hence the claimed number of recursion
levels is `min(depth, ∞) = 1`; but every snapshot of the run is reported at
level 0: the recursion guard `newDepth > 0` with `newDepth = depth - 1 = 0`
blocks any recursive call, so zero recursion levels are reached. -/
theorem recursion_levels_not_min_depth :
    (deepResearch envAllOk 1 "seed" 1 [] [] 0).toOption.map
        (fun res => res.2.map Prod.fst) = some [0, 0] ∧
    ceilHalf 1 = 1 ∧ min 1 1 = 1 :=
  ⟨by decide, rfl, rfl⟩

/-- C3 (amended): each recursive step computes breadth
`ceil(parent breadth / 2)` and depth `parent depth - 1`, so every snapshot
at relative recursion level `i` belongs to a call whose breadth argument is
`ceilHalf^[i] breadth = ceil(initialBreadth / 2^i)` and whose depth argument
is `depth - i`.  The number of recursion levels actually reached, however,
is `depth - 1` truncated at zero — not `min depth (levels until breadth
underflows)`: breadth never underflows below 1, and with total backends,
a planner returning at least one query, and `breadth ≥ 1`, some snapshot is
reported at relative level `depth - 1` while no snapshot is ever reported
deeper. -/
theorem deepResearch_breadth_depth_decay :
    (∀ (i b : Nat), ceilHalf^[i] b = (b + 2 ^ i - 1) / 2 ^ i) ∧
    (∀ (env : Env) (d : Nat) (query : String) (breadth : Nat)
      (learnings visitedUrls : List String) (level : Nat)
      (r : ResearchResult) (tr : List (Nat × ResearchProgress)),
      deepResearch env d query breadth learnings visitedUrls level = .ok (r, tr) →
      ∀ e ∈ tr, e.1 ≤ level + (d - 1) ∧
        e.2.totalBreadth = ceilHalf^[e.1 - level] breadth ∧
        e.2.totalDepth = d - (e.1 - level)) ∧
    (∀ (env : Env), EnvTotal env →
      ∀ (d : Nat) (query : String) (breadth : Nat)
        (learnings visitedUrls : List String) (level : Nat), 1 ≤ breadth →
        ∃ r tr, deepResearch env d query breadth learnings visitedUrls level =
          .ok (r, tr) ∧ (level + (d - 1)) ∈ tr.map Prod.fst) := by
  refine ⟨ceilHalf_iterate, ?_, deepResearch_reach⟩
  intro env d query breadth learnings visitedUrls level r tr h e he
  obtain ⟨-, h2, h3, h4⟩ := deepResearch_trace_good env d query breadth learnings
    visitedUrls level r tr h e he
  exact ⟨h2, h3, h4⟩

/-- Witness for `deepResearch_breadth_depth_decay`: a depth-3, breadth-4 run
of the all-succeeding environment reaches relative recursion level 2. -/
theorem deepResearch_breadth_depth_decay_witness :
    ∃ r tr, deepResearch envAllOk 3 "seed" 4 [] [] 0 = .ok (r, tr) ∧
      (0 + (3 - 1)) ∈ tr.map Prod.fst :=
  deepResearch_breadth_depth_decay.2.2 envAllOk envAllOk_total 3 "seed" 4 [] [] 0
    (by omega)

/-- Like `envAllOk`, except that every search call fails (e.g. times out). -/
def envSearchFail : Env :=
  { envAllOk with search := fun _ _ => .error "search timeout" }

/-- C1's "a top-level call fails only if the initial planning call fails" is
false on the code.  Concrete input: `envChildPlanFail`, depth 2, breadth 1.
The initial planning call (empty accumulated-learnings context) succeeds
with one sub-query, the branch's search and distillation succeed and the
branch recurses; the recursive call's own planning call (non-empty
accumulated learnings) fails — and because the branch returns the recursive
promise without `await`, the rejection escapes the branch's `try`/`catch`
and the top-level call rejects even though its initial planning call
succeeded. -/
theorem toplevel_rejects_on_child_planning_failure :
    generateSerpQueries envChildPlanFail "root" 1 [] = .ok [⟨"q1", "g1"⟩] ∧
    deepResearch envChildPlanFail 2 "root" 1 [] [] 0 = .error "planning failed" :=
  ⟨by decide, by decide⟩

/-- C1 (amended): a branch whose search or distillation step fails yields the
empty partial result `{learnings: [], visitedUrls: []}` without aborting its
siblings or the parent call, and a failure of the initial planning call
propagates to the caller unhandled; however the top-level call rejects not
only then, but also whenever the planning call of a recursive sub-call that
actually runs fails: the recursive promise is returned without `await`, so
its rejection escapes the branch's `try`/`catch` and rejects the parent. -/
theorem branch_failures_caught_planning_failures_escape :
    (∀ (env : Env) (child : ExploreFn) (breadth depth : Nat)
      (learnings visitedUrls : List String) (level : Nat) (sq : SerpQuery)
      (progress : ResearchProgress) (e : String),
      env.search sq.query 5 = .error e →
      branchStep env child breadth depth learnings visitedUrls level sq progress =
        .ok (⟨[], []⟩, progress, [])) ∧
    (∀ (env : Env) (child : ExploreFn) (breadth depth : Nat)
      (learnings visitedUrls : List String) (level : Nat) (sq : SerpQuery)
      (progress : ResearchProgress) (result : SearchResponse) (e : String),
      env.search sq.query 5 = .ok result →
      processSerpResult env sq.query result 3 (ceilHalf breadth) = .error e →
      branchStep env child breadth depth learnings visitedUrls level sq progress =
        .ok (⟨[], []⟩, progress, [])) ∧
    (∀ (env : Env) (child : ExploreFn) (breadth depth : Nat)
      (learnings visitedUrls : List String) (level : Nat) (sq : SerpQuery)
      (rest : List SerpQuery) (progress : ResearchProgress) (e : String),
      env.search sq.query 5 = .error e →
      runBranchesWith env child breadth depth learnings visitedUrls level
        (sq :: rest) progress =
      (runBranchesWith env child breadth depth learnings visitedUrls level rest
        progress).map (fun out => (⟨[], []⟩ :: out.1, out.2))) ∧
    (∀ (env : Env) (d : Nat) (query : String) (breadth : Nat)
      (learnings visitedUrls : List String) (level : Nat) (e : String),
      generateSerpQueries env query breadth learnings = .error e →
      deepResearch env d query breadth learnings visitedUrls level = .error e) ∧
    (∀ (env : Env) (breadth depth : Nat) (learnings visitedUrls : List String)
      (level : Nat) (sq : SerpQuery) (progress : ResearchProgress)
      (result : SearchResponse) (ext : SerpExtraction) (e : String),
      0 < depth - 1 →
      env.search sq.query 5 = .ok result →
      processSerpResult env sq.query result 3 (ceilHalf breadth) = .ok ext →
      deepResearch env (depth - 1)
        (nextQueryString sq.researchGoal ext.followUpQuestions) (ceilHalf breadth)
        (learnings ++ ext.learnings)
        (visitedUrls ++ compactStr (result.data.map (fun item => item.url)))
        (level + 1) = .error e →
      branchStep env (deepResearch env (depth - 1)) breadth depth learnings
        visitedUrls level sq progress = .error e) := by
  refine ⟨?_, ?_, ?_, ?_, ?_⟩
  · intro env child breadth depth learnings visitedUrls level sq progress e he
    exact branchStep_searchFail env child breadth depth learnings visitedUrls level
      sq progress he
  · intro env child breadth depth learnings visitedUrls level sq progress result e
      hres hext
    exact branchStep_distillFail env child breadth depth learnings visitedUrls level
      sq progress hres hext
  · intro env child breadth depth learnings visitedUrls level sq rest progress e he
    conv_lhs => rw [runBranchesWith]
    rw [branchStep_searchFail env child breadth depth learnings visitedUrls level
      sq progress he]
    cases hrest : runBranchesWith env child breadth depth learnings visitedUrls
        level rest progress with
    | error e2 => simp only [hrest, Except.map]
    | ok out =>
      obtain ⟨rs, p, t⟩ := out
      simp only [hrest, Except.map, List.nil_append]
  · intro env d query breadth learnings visitedUrls level e hplan
    rw [deepResearch_unfold]
    unfold deepResearchStep
    rw [hplan]
  · intro env breadth depth learnings visitedUrls level sq progress result ext e
      hdep hres hext hchild
    rw [branchStep_recursive env (deepResearch env (depth - 1)) breadth depth
      learnings visitedUrls level sq progress hdep hres hext, hchild]

/-- Witness for `branch_failures_caught_planning_failures_escape`: a branch
whose search times out contributes the empty partial result. -/
theorem branch_failures_caught_witness :
    branchStep envSearchFail (fun _ _ _ _ _ => .ok (⟨[], []⟩, [])) 1 1 [] [] 0
      ⟨"q", "g"⟩ (initialProgress 1 1 [⟨"q", "g"⟩]) =
      .ok (⟨[], []⟩, initialProgress 1 1 [⟨"q", "g"⟩], []) :=
  branch_failures_caught_planning_failures_escape.1 envSearchFail
    (fun _ _ _ _ _ => .ok (⟨[], []⟩, [])) 1 1 [] [] 0 ⟨"q", "g"⟩
    (initialProgress 1 1 [⟨"q", "g"⟩]) "search timeout" rfl

/-- A branch failure that the source's `try`/`catch` handles: the search call
rejects, or the search succeeds and the distillation call rejects. -/
def branchFails (env : Env) (breadth : Nat) (sq : SerpQuery) : Prop :=
  (∃ e, env.search sq.query 5 = .error e) ∨
  (∃ result e, env.search sq.query 5 = .ok result ∧
    processSerpResult env sq.query result 3 (ceilHalf breadth) = .error e)

theorem runBranchesWith_allFail (env : Env) (child : ExploreFn) (breadth depth : Nat)
    (learnings visitedUrls : List String) (level : Nat) :
    ∀ (qs : List SerpQuery) (progress : ResearchProgress),
      (∀ sq ∈ qs, branchFails env breadth sq) →
      runBranchesWith env child breadth depth learnings visitedUrls level qs
        progress = .ok (qs.map (fun _ => ⟨[], []⟩), progress, []) := by
  intro qs
  induction qs with
  | nil => intro progress _; rfl
  | cons sq rest ih =>
    intro progress hall
    have hb : branchStep env child breadth depth learnings visitedUrls level sq
        progress = .ok (⟨[], []⟩, progress, []) := by
      rcases hall sq (by simp) with ⟨e, he⟩ | ⟨result, e, hres, hext⟩
      · exact branchStep_searchFail env child breadth depth learnings visitedUrls
          level sq progress he
      · exact branchStep_distillFail env child breadth depth learnings visitedUrls
          level sq progress hres hext
    conv_lhs => rw [runBranchesWith]
    simp only [hb, ih progress (fun q hq => hall q (List.mem_cons_of_mem _ hq)),
      List.nil_append, List.map_cons]

/-- C10: if the planner returns zero sub-queries, or every branch of the call
fails with a failure the branch's `catch` handles (search or distillation
rejection), the call returns `{learnings: [], visitedUrls: []}`: the
caller-supplied accumulated learnings and visited URLs reach the result only
through branches that succeed, and are absent when no branch does. -/
theorem deepResearch_empty_when_no_branch_succeeds :
    (∀ (env : Env) (d : Nat) (query : String) (breadth : Nat)
      (learnings visitedUrls : List String) (level : Nat),
      generateSerpQueries env query breadth learnings = .ok [] →
      ∃ tr, deepResearch env d query breadth learnings visitedUrls level =
        .ok (⟨[], []⟩, tr)) ∧
    (∀ (env : Env) (d : Nat) (query : String) (breadth : Nat)
      (learnings visitedUrls : List String) (level : Nat) (qs : List SerpQuery),
      generateSerpQueries env query breadth learnings = .ok qs →
      (∀ sq ∈ qs, branchFails env breadth sq) →
      ∃ tr, deepResearch env d query breadth learnings visitedUrls level =
        .ok (⟨[], []⟩, tr)) := by
  have main : ∀ (env : Env) (d : Nat) (query : String) (breadth : Nat)
      (learnings visitedUrls : List String) (level : Nat) (qs : List SerpQuery),
      generateSerpQueries env query breadth learnings = .ok qs →
      (∀ sq ∈ qs, branchFails env breadth sq) →
      ∃ tr, deepResearch env d query breadth learnings visitedUrls level =
        .ok (⟨[], []⟩, tr) := by
    intro env d query breadth learnings visitedUrls level qs hplan hfail
    refine ⟨[(level, initialProgress breadth d qs)], ?_⟩
    rw [deepResearch_unfold]
    unfold deepResearchStep
    simp only [hplan, runBranchesWith_allFail env (deepResearch env (d - 1)) breadth
      d learnings visitedUrls level qs (initialProgress breadth d qs) hfail]
    have h1 : (qs.map (fun _ => (⟨[], []⟩ : ResearchResult))).flatMap
        ResearchResult.learnings = [] := by
      induction qs with
      | nil => rfl
      | cons a as ihq => simp [ihq]
    have h2 : (qs.map (fun _ => (⟨[], []⟩ : ResearchResult))).flatMap
        ResearchResult.visitedUrls = [] := by
      induction qs with
      | nil => rfl
      | cons a as ihq => simp [ihq]
    rw [h1, h2]
    rfl
  exact ⟨fun env d query breadth learnings visitedUrls level hplan =>
    main env d query breadth learnings visitedUrls level [] hplan (by simp),
    main⟩

/-- Witness for `deepResearch_empty_when_no_branch_succeeds`: every search
times out, so the caller-supplied accumulated learnings and URLs are absent
from the result. -/
theorem deepResearch_empty_witness :
    ∃ tr, deepResearch envSearchFail 1 "seed" 1 ["prior"] ["https://prior"] 0 =
      .ok (⟨[], []⟩, tr) :=
  deepResearch_empty_when_no_branch_succeeds.2 envSearchFail 1 "seed" 1 ["prior"]
    ["https://prior"] 0 [⟨"q", "g"⟩] rfl
    (fun _ _ => Or.inl ⟨"search timeout", rfl⟩)

/-- The result of one terminal branch (the `else` path of the branch body,
deep-research.ts lines 256–266, together with its two `catch` outcomes):
search, distill with `numFollowUpQuestions = ceil(breadth / 2)`, and merge
the caller's accumulated learnings and URLs with this branch's. -/
def terminalBranch (env : Env) (breadth : Nat) (learnings visitedUrls : List String)
    (sq : SerpQuery) : ResearchResult :=
  match env.search sq.query 5 with
  | .error _ => ⟨[], []⟩
  | .ok result =>
    match processSerpResult env sq.query result 3 (ceilHalf breadth) with
    | .error _ => ⟨[], []⟩
    | .ok ext =>
      ⟨learnings ++ ext.learnings,
       visitedUrls ++ compactStr (result.data.map (fun item => item.url))⟩

theorem branchStep_depth0 (env : Env) (child : ExploreFn) (breadth : Nat)
    (learnings visitedUrls : List String) (level : Nat) (sq : SerpQuery)
    (progress : ResearchProgress) :
    ∃ p2 t1, branchStep env child breadth 0 learnings visitedUrls level sq progress =
      .ok (terminalBranch env breadth learnings visitedUrls sq, p2, t1) ∧
      ∀ e ∈ t1, e.1 = level := by
  rcases hsearch : env.search sq.query 5 with e | result
  · have ht : terminalBranch env breadth learnings visitedUrls sq = ⟨[], []⟩ := by
      unfold terminalBranch
      rw [hsearch]
    refine ⟨progress, [], ?_, by simp⟩
    rw [ht]
    exact branchStep_searchFail env child breadth 0 learnings visitedUrls level sq
      progress hsearch
  · rcases hext : processSerpResult env sq.query result 3 (ceilHalf breadth)
      with e | ext
    · have ht : terminalBranch env breadth learnings visitedUrls sq = ⟨[], []⟩ := by
        unfold terminalBranch
        rw [hsearch]
        simp only [hext]
      refine ⟨progress, [], ?_, by simp⟩
      rw [ht]
      exact branchStep_distillFail env child breadth 0 learnings visitedUrls level
        sq progress hsearch hext
    · have ht : terminalBranch env breadth learnings visitedUrls sq =
          ⟨learnings ++ ext.learnings,
           visitedUrls ++ compactStr (result.data.map (fun item => item.url))⟩ := by
        unfold terminalBranch
        rw [hsearch]
        simp only [hext]
      refine ⟨terminalReport progress sq, [(level, terminalReport progress sq)],
        ?_, by simp⟩
      rw [ht]
      exact branchStep_terminal env child breadth 0 learnings visitedUrls level sq
        progress rfl hsearch hext

theorem runBranchesWith_depth0 (env : Env) (child : ExploreFn) (breadth : Nat)
    (learnings visitedUrls : List String) (level : Nat) :
    ∀ (qs : List SerpQuery) (progress : ResearchProgress),
      ∃ p tr, runBranchesWith env child breadth 0 learnings visitedUrls level qs
        progress =
        .ok (qs.map (terminalBranch env breadth learnings visitedUrls), p, tr) ∧
        ∀ e ∈ tr, e.1 = level := by
  intro qs
  induction qs with
  | nil => exact fun progress => ⟨progress, [], rfl, by simp⟩
  | cons sq rest ih =>
    intro progress
    obtain ⟨p2, t1, hb, hl1⟩ := branchStep_depth0 env child breadth learnings
      visitedUrls level sq progress
    obtain ⟨p3, t2, hr, hl2⟩ := ih p2
    refine ⟨p3, t1 ++ t2, ?_, ?_⟩
    · conv_lhs => rw [runBranchesWith]
      simp only [hb, hr, List.map_cons]
    · intro e he
      rcases List.mem_append.mp he with he | he
      · exact hl1 e he
      · exact hl2 e he

/-- C5: with `depth = 0` the call still issues one full round of sub-queries
at the given breadth — it plans up to `breadth` sub-queries, then searches
and distills each of them exactly as a terminal branch — returns the
deduplicated learnings and visited URLs of that single round, and performs
no recursive call: every snapshot is reported at the call's own level. -/
theorem deepResearch_depth0_one_round (env : Env) (query : String) (breadth : Nat)
    (learnings visitedUrls : List String) (level : Nat) (qs : List SerpQuery)
    (hplan : generateSerpQueries env query breadth learnings = .ok qs) :
    ∃ tr, deepResearch env 0 query breadth learnings visitedUrls level =
      .ok (⟨dedupFirst
              ((qs.map (terminalBranch env breadth learnings visitedUrls)).flatMap
                ResearchResult.learnings),
            dedupFirst
              ((qs.map (terminalBranch env breadth learnings visitedUrls)).flatMap
                ResearchResult.visitedUrls)⟩, tr) ∧
      ∀ e ∈ tr, e.1 = level := by
  obtain ⟨p, tr0, hrun, hlvl⟩ := runBranchesWith_depth0 env (deepResearch env 0)
    breadth learnings visitedUrls level qs (initialProgress breadth 0 qs)
  refine ⟨(level, initialProgress breadth 0 qs) :: tr0, ?_, ?_⟩
  · rw [deepResearch_unfold]
    unfold deepResearchStep
    simp only [Nat.zero_sub, hplan, hrun]
  · intro e he
    rcases List.mem_cons.mp he with rfl | he
    · rfl
    · exact hlvl e he

/-- Witness for `deepResearch_depth0_one_round`: a depth-0, breadth-3 run of
the all-succeeding environment still runs its single round. -/
theorem deepResearch_depth0_one_round_witness :
    ∃ tr, deepResearch envAllOk 0 "seed" 3 [] [] 0 =
      .ok (⟨dedupFirst
              (([⟨"q", "g"⟩].map (terminalBranch envAllOk 3 [] [])).flatMap
                ResearchResult.learnings),
            dedupFirst
              (([⟨"q", "g"⟩].map (terminalBranch envAllOk 3 [] [])).flatMap
                ResearchResult.visitedUrls)⟩, tr) ∧
      ∀ e ∈ tr, e.1 = 0 :=
  deepResearch_depth0_one_round envAllOk "seed" 3 [] [] 0 [⟨"q", "g"⟩] rfl

/-- C6: the `ExplorationResult` is built by `[...new Set(...)]` over the
flattened branch results: each learning string and each visited URL occurs
exactly once (first-occurrence order, exact string equality), membership
equals the union of the branches' lists, and — the backends being
deterministic functions — any second run of the same call returns a result
with identical membership (indeed the identical result). -/
theorem deepResearch_dedup (env : Env) (d : Nat) (query : String) (breadth : Nat)
    (learnings visitedUrls : List String) (level : Nat) (qs : List SerpQuery)
    (results : List ResearchResult) (p : ResearchProgress)
    (trace : List (Nat × ResearchProgress))
    (hplan : generateSerpQueries env query breadth learnings = .ok qs)
    (hrun : runBranchesWith env (deepResearch env (d - 1)) breadth d learnings
      visitedUrls level qs (initialProgress breadth d qs) = .ok (results, p, trace)) :
    ∃ r tr, deepResearch env d query breadth learnings visitedUrls level =
        .ok (r, tr) ∧
      r.learnings = dedupFirst (results.flatMap ResearchResult.learnings) ∧
      r.visitedUrls = dedupFirst (results.flatMap ResearchResult.visitedUrls) ∧
      r.learnings.Nodup ∧ r.visitedUrls.Nodup ∧
      (∀ s, s ∈ r.learnings ↔ ∃ br ∈ results, s ∈ br.learnings) ∧
      (∀ s, s ∈ r.visitedUrls ↔ ∃ br ∈ results, s ∈ br.visitedUrls) ∧
      (∀ s ∈ r.learnings, r.learnings.count s = 1) ∧
      (∀ s ∈ r.visitedUrls, r.visitedUrls.count s = 1) ∧
      (∀ r2 tr2, deepResearch env d query breadth learnings visitedUrls level =
        .ok (r2, tr2) → r2 = r) := by
  have hmain : deepResearch env d query breadth learnings visitedUrls level =
      .ok (⟨dedupFirst (results.flatMap ResearchResult.learnings),
            dedupFirst (results.flatMap ResearchResult.visitedUrls)⟩,
           (level, initialProgress breadth d qs) :: trace) := by
    rw [deepResearch_unfold]
    unfold deepResearchStep
    simp only [hplan, hrun]
  refine ⟨_, _, hmain, rfl, rfl, nodup_dedupFirst _, nodup_dedupFirst _,
    ?_, ?_, ?_, ?_, ?_⟩
  · intro s
    rw [mem_dedupFirst, List.mem_flatMap]
  · intro s
    rw [mem_dedupFirst, List.mem_flatMap]
  · intro s hs
    exact List.count_eq_one_of_mem (nodup_dedupFirst _) hs
  · intro s hs
    exact List.count_eq_one_of_mem (nodup_dedupFirst _) hs
  · intro r2 tr2 h2
    rw [hmain] at h2
    simp only [Except.ok.injEq, Prod.mk.injEq] at h2
    exact h2.1.symm

/-- Witness for `deepResearch_dedup`: a single-branch run of the
all-succeeding environment. -/
theorem deepResearch_dedup_witness :
    ∃ r tr, deepResearch envAllOk 0 "seed" 1 [] [] 0 = .ok (r, tr) ∧
      r.learnings = dedupFirst
        (([⟨["L"], ["https://u1"]⟩] : List ResearchResult).flatMap
          ResearchResult.learnings) ∧
      r.visitedUrls = dedupFirst
        (([⟨["L"], ["https://u1"]⟩] : List ResearchResult).flatMap
          ResearchResult.visitedUrls) ∧
      r.learnings.Nodup ∧ r.visitedUrls.Nodup ∧
      (∀ s, s ∈ r.learnings ↔
        ∃ br ∈ ([⟨["L"], ["https://u1"]⟩] : List ResearchResult), s ∈ br.learnings) ∧
      (∀ s, s ∈ r.visitedUrls ↔
        ∃ br ∈ ([⟨["L"], ["https://u1"]⟩] : List ResearchResult),
          s ∈ br.visitedUrls) ∧
      (∀ s ∈ r.learnings, r.learnings.count s = 1) ∧
      (∀ s ∈ r.visitedUrls, r.visitedUrls.count s = 1) ∧
      (∀ r2 tr2, deepResearch envAllOk 0 "seed" 1 [] [] 0 = .ok (r2, tr2) →
        r2 = r) :=
  deepResearch_dedup envAllOk 0 "seed" 1 [] [] 0 [⟨"q", "g"⟩]
    [⟨["L"], ["https://u1"]⟩] _ _ rfl rfl

theorem foldl_foldl_insertIfAbsent (ls : List (List String)) :
    ∀ acc : List String,
      ls.foldl (fun acc l => l.foldl insertIfAbsent acc) acc =
      ls.flatten.foldl insertIfAbsent acc := by
  induction ls with
  | nil => intro acc; rfl
  | cons l ls ih =>
    intro acc
    simp only [List.foldl_cons, List.flatten_cons, List.foldl_append, ih]

/-- C8: the discovery phase returns the union of every query's extracted
entity-name list, deduplicated by exact string equality with first
occurrences kept and no normalization applied: membership in the returned
set is literal string membership in some query's extracted list, so strings
differing only in case or whitespace remain distinct entries. -/
theorem discoverDrugs_dedup (env : Env) (indication : String)
    (queries : List String)
    (hq : env.discoverQueriesBackend indication = .ok queries) :
    ∃ drugs, discoverDrugsForIndication env indication = .ok drugs ∧
      drugs = dedupFirst ((queries.map (queryDrugList env indication)).flatten) ∧
      drugs.Nodup ∧
      (∀ s, s ∈ drugs ↔ ∃ q ∈ queries, s ∈ queryDrugList env indication q) := by
  have hfold : queries.foldl
      (fun allDrugs q => (queryDrugList env indication q).foldl insertIfAbsent
        allDrugs) [] =
      dedupFirst ((queries.map (queryDrugList env indication)).flatten) := by
    rw [dedupFirst, ← foldl_foldl_insertIfAbsent, List.foldl_map]
  refine ⟨dedupFirst ((queries.map (queryDrugList env indication)).flatten),
    ?_, rfl, nodup_dedupFirst _, ?_⟩
  · unfold discoverDrugsForIndication
    rw [hq]
    simp only [Except.map_ok, Except.ok.injEq]
    exact hfold
  · intro s
    rw [mem_dedupFirst, List.mem_flatten]
    constructor
    · rintro ⟨l, hl, hs⟩
      obtain ⟨q, hq2, rfl⟩ := List.mem_map.mp hl
      exact ⟨q, hq2, hs⟩
    · rintro ⟨q, hq2, hs⟩
      exact ⟨queryDrugList env indication q, List.mem_map_of_mem _ hq2, hs⟩

/-- An environment realising the spec's no-normalization regression
scenario: two discovery queries whose pages yield the entity lists
`["Drug A"]` and `["drug a", "Drug B"]`. -/
def envDiscovery : Env :=
  { envAllOk with
    discoverQueriesBackend := fun _ => .ok ["dq1", "dq2"]
    search := fun q _ => .ok ⟨[⟨some ("https://" ++ q), some q⟩]⟩
    drugListBackend := fun _ md =>
      if md = "dq1" then .ok ["Drug A"] else .ok ["drug a", "Drug B"] }

/-- Witness for `discoverDrugs_dedup`: the discovery set keeps `"Drug A"` and
`"drug a"` as distinct entries (no case folding). -/
theorem discoverDrugs_dedup_witness :
    discoverDrugsForIndication envDiscovery "ind" =
      .ok ["Drug A", "drug a", "Drug B"] ∧
    ∃ drugs, discoverDrugsForIndication envDiscovery "ind" = .ok drugs ∧
      drugs = dedupFirst (((["dq1", "dq2"] : List String).map
        (queryDrugList envDiscovery "ind")).flatten) ∧
      drugs.Nodup ∧
      (∀ s, s ∈ drugs ↔ ∃ q ∈ (["dq1", "dq2"] : List String),
        s ∈ queryDrugList envDiscovery "ind" q) :=
  ⟨by decide, discoverDrugs_dedup envDiscovery "ind" ["dq1", "dq2"] rfl⟩

/-- A minimal well-formed `DrugInfo` record, as the merge backend of the
test environment returns it. -/
def sampleDrugInfo (name : String) : DrugInfo :=
  ⟨name, name, .unspecified, [], .unspecified, "", .unspecified, .unspecified,
   "", []⟩

/-- An environment for the per-entity research phase in which the first
targeted search times out and every fragment extraction fails, while
discovery finds exactly one entity and the merge call succeeds. -/
def envDrugResearch : Env :=
  { planBackend := fun _ _ => .error "unused"
    search := fun q _ =>
      if q = "DrugX clinical trials status development phase" then
        .error "search timeout"
      else .ok ⟨[⟨some "https://d", some "page"⟩, ⟨some "https://e", some ""⟩]⟩
    distillBackend := fun _ _ _ _ => .error "unused"
    discoverQueriesBackend := fun _ => .ok ["dq"]
    drugListBackend := fun _ _ => .ok ["DrugX"]
    drugInfoBackend := fun _ _ => .error "extraction failed"
    mergeBackend := fun name _ => .ok (sampleDrugInfo name) }

theorem researchAll_total (env : Env)
    (hmerge : ∀ name frags, ∃ info, env.mergeBackend name frags = .ok info) :
    ∀ ds : List String,
      ∃ records, researchAll env ds = .ok records ∧
        records.length = ds.length ∧
        ∀ i (h1 : i < ds.length) (h2 : i < records.length),
          researchDrug env (ds.get ⟨i, h1⟩) = .ok (records.get ⟨i, h2⟩) := by
  intro ds
  induction ds with
  | nil => exact ⟨[], rfl, rfl, fun i h1 _ => by simp at h1⟩
  | cons d rest ih =>
    obtain ⟨records, hrec, hlen, hpt⟩ := ih
    have hd : ∃ info, researchDrug env d = .ok info := by
      unfold researchDrug
      exact hmerge d _
    obtain ⟨info, hd⟩ := hd
    refine ⟨info :: records, ?_, by simp [hlen], ?_⟩
    · conv_lhs => rw [researchAll]
      simp only [hd, hrec]
    · intro i h1 h2
      cases i with
      | zero => exact hd
      | succ n => exact hpt n (by simpa using h1) (by simpa using h2)

/-- C4: every entity produced by the discovery phase yields a `Record` in the
list returned by `performCompetitorAnalysis`, in discovery order, even when
arbitrary search calls and fragment extractions fail — those failures only
remove fragments, and the final merge call still produces a best-effort
record for the entity; no entity is ever dropped. -/
theorem performCompetitorAnalysis_never_drops (env : Env) (indication : String)
    (drugs : List String)
    (hdisc : discoverDrugsForIndication env indication = .ok drugs)
    (hmerge : ∀ name frags, ∃ info, env.mergeBackend name frags = .ok info) :
    ∃ records, performCompetitorAnalysis env indication = .ok records ∧
      records.length = drugs.length ∧
      ∀ i (h1 : i < drugs.length) (h2 : i < records.length),
        researchDrug env (drugs.get ⟨i, h1⟩) = .ok (records.get ⟨i, h2⟩) := by
  obtain ⟨records, hrec, hlen, hpt⟩ := researchAll_total env hmerge drugs
  refine ⟨records, ?_, hlen, hpt⟩
  unfold performCompetitorAnalysis
  rw [hdisc]
  exact hrec

/-- Witness for `performCompetitorAnalysis_never_drops`: with one discovered
entity, a timed-out search and failing fragment extractions, the entity
still yields its merged record. -/
theorem performCompetitorAnalysis_never_drops_witness :
    performCompetitorAnalysis envDrugResearch "ind" = .ok [sampleDrugInfo "DrugX"] ∧
    ∃ records, performCompetitorAnalysis envDrugResearch "ind" = .ok records ∧
      records.length = (["DrugX"] : List String).length ∧
      ∀ i (h1 : i < (["DrugX"] : List String).length) (h2 : i < records.length),
        researchDrug envDrugResearch ((["DrugX"] : List String).get ⟨i, h1⟩) =
          .ok (records.get ⟨i, h2⟩) :=
  ⟨by decide, performCompetitorAnalysis_never_drops envDrugResearch "ind" ["DrugX"]
    (by decide) (fun name _ => ⟨sampleDrugInfo name, rfl⟩)⟩

/-- C7: `generateSerpQueries` returns at most `numQueries` entries; the
backend's list is truncated to its first `min (backend count) numQueries`
entries, in backend order, and is never padded. -/
theorem generateSerpQueries_truncates (env : Env) (query : String)
    (numQueries : Nat) (learnings : List String) (qs : List SerpQuery)
    (h : env.planBackend query learnings = .ok qs) :
    generateSerpQueries env query numQueries learnings = .ok (qs.take numQueries) ∧
    (qs.take numQueries).length = min qs.length numQueries ∧
    (qs.take numQueries).length ≤ numQueries ∧
    qs.take numQueries <+: qs := by
  refine ⟨by simp [generateSerpQueries, h], ?_, ?_, List.take_prefix numQueries qs⟩
  · rw [List.length_take, Nat.min_comm]
  · exact List.length_take_le numQueries qs

/-- Witness for `generateSerpQueries_truncates`: a backend over-producing
three queries is truncated to the first two. -/
theorem generateSerpQueries_truncates_witness :
    generateSerpQueries
      { planBackend := fun _ _ => .ok [⟨"a", "g1"⟩, ⟨"b", "g2"⟩, ⟨"c", "g3"⟩]
        search := fun _ _ => .error "unused"
        distillBackend := fun _ _ _ _ => .error "unused"
        discoverQueriesBackend := fun _ => .error "unused"
        drugListBackend := fun _ _ => .error "unused"
        drugInfoBackend := fun _ _ => .error "unused"
        mergeBackend := fun _ _ => .error "unused" }
      "topic" 2 [] = .ok [⟨"a", "g1"⟩, ⟨"b", "g2"⟩] :=
  (generateSerpQueries_truncates _ "topic" 2 []
    [⟨"a", "g1"⟩, ⟨"b", "g2"⟩, ⟨"c", "g3"⟩] rfl).1
